import Mathlib

/-!
Verification of the Storage core of the second-hand platform (main.py):
data model (User, Product, comments), identifier allocation, the admin
bootstrap in Storage initialization, the three delete paths of the
application layer, JSON round-trip persistence, and the image importer.

Python machine-level conventions are embedded as follows: Python ints are
`Int` (arbitrary precision in both), Python floats occurring only as the
product price are modelled as `Rat` (JSON round-trips them exactly),
Python lists are `List`, exceptions are `Except`, the filesystem is the
list of existing path strings, and the unbounded `while` loop of the
importer takes explicit fuel.
-/

namespace SecondHand

/-- A product comment, the dict with keys userId, nickname, text
(main.py line 75). -/
structure Comment where
  userId : Int
  nickname : String
  text : String
deriving DecidableEq

/-- The User dataclass (main.py lines 48-57), field for field and in
declaration order. -/
structure User where
  userId : Int
  email : String
  phone : String
  password : String
  nickname : String
  avatar : String := ""
  is_admin : Bool := false
  favorites : List Int := []
deriving DecidableEq

/-- The Product dataclass (main.py lines 66-75), field for field and in
declaration order; price is the Python float, modelled as a rational. -/
structure Product where
  productId : Int
  name : String
  category : String
  description : String
  price : Rat
  images : List String
  sellerId : Int
  comments : List Comment := []
deriving DecidableEq

/-- The two in-memory collections owned by Storage (main.py lines 92-93). -/
structure Storage where
  users : List User
  products : List Product
deriving DecidableEq

/-- main.py lines 34-35: `(max(existing_ids) + 1) if existing_ids else 1`.
Python max over a non-empty list is the left fold of the binary max. -/
def ensure_int_id (existing_ids : List Int) : Int :=
  match existing_ids with
  | [] => 1
  | x :: xs => xs.foldl max x + 1

/-- The left fold of max over `x :: xs` bounds every element of the list
and the seed, and is itself the seed or an element. -/
theorem foldl_max_spec (xs : List Int) (x : Int) :
    (x ≤ xs.foldl max x ∧ ∀ y ∈ xs, y ≤ xs.foldl max x) ∧
      (xs.foldl max x = x ∨ xs.foldl max x ∈ xs) := by
  induction xs generalizing x with
  | nil => simp
  | cons a xs ih =>
    have h := ih (max x a)
    refine ⟨⟨le_trans (le_max_left x a) h.1.1, ?_⟩, ?_⟩
    · intro y hy
      rcases List.mem_cons.mp hy with rfl | hy
      · exact le_trans (le_max_right x y) h.1.1
      · exact h.1.2 y hy
    · rcases h.2 with heq | hmem
      · rcases max_choice x a with hx | ha
        · simp only [List.foldl_cons]
          rw [heq, hx]
          exact Or.inl rfl
        · simp only [List.foldl_cons]
          rw [heq, ha]
          exact Or.inr (List.mem_cons_self a xs)
      · exact Or.inr (List.mem_cons_of_mem a hmem)

/-- C6: the Identifier Allocator returns 1 on the empty list; on a
non-empty list of integer ids it returns the maximum element plus one,
which bounds every element strictly from above and is the least integer
doing so; in particular ensure_int_id [] = 1 and
ensure_int_id [1, 2, 5] = 6. Totality and purity hold by construction. -/
theorem C6_ensure_int_id_spec :
    ensure_int_id [] = 1 ∧ ensure_int_id [1, 2, 5] = 6 ∧
    ∀ l : List Int, l ≠ [] →
      (∃ m ∈ l, (∀ x ∈ l, x ≤ m) ∧ ensure_int_id l = m + 1) ∧
      (∀ x ∈ l, x < ensure_int_id l) ∧
      (∀ y : Int, (∀ x ∈ l, x < y) → ensure_int_id l ≤ y) := by
  refine ⟨rfl, by decide, ?_⟩
  intro l hl
  match l, hl with
  | x :: xs, _ =>
    have h := foldl_max_spec xs x
    have hmem : xs.foldl max x ∈ x :: xs := by
      rcases h.2 with heq | hm
      · rw [heq]; exact List.mem_cons_self x xs
      · exact List.mem_cons_of_mem x hm
    have hub : ∀ y ∈ x :: xs, y ≤ xs.foldl max x := by
      intro y hy
      rcases List.mem_cons.mp hy with rfl | hy
      · exact h.1.1
      · exact h.1.2 y hy
    refine ⟨⟨xs.foldl max x, hmem, hub, rfl⟩, ?_, ?_⟩
    · intro y hy
      exact lt_of_le_of_lt (hub y hy) (by simp [ensure_int_id])
    · intro y hy
      have := hy _ hmem
      show xs.foldl max x + 1 ≤ y
      omega

/-- Witness for C6 at the concrete input [1, 2, 5]. -/
theorem C6_witness : ensure_int_id [1, 2, 5] ≤ 6 :=
  (C6_ensure_int_id_spec.2.2 [1, 2, 5] (by decide)).2.2 6 (by decide)

/-- The default administrator record built at main.py line 98:
`User(admin_id, "admin@example.com", "", "admin", "Administrator", "", True, [])`,
read positionally against the dataclass field order. -/
def defaultAdmin (admin_id : Int) : User :=
  { userId := admin_id
    email := "admin@example.com"
    phone := ""
    password := "admin"
    nickname := "Administrator"
    avatar := ""
    is_admin := true
    favorites := [] }

/-- main.py lines 95-100, the admin bootstrap of Storage.__init__ applied
to the loaded users collection. The second component records the
collection passed to save_users before __init__ returns, `none` when no
save happens. -/
def initUsersSave (loaded : List User) : List User × Option (List User) :=
  if loaded.any (fun u => u.is_admin) then (loaded, none)
  else
    let admin_id := ensure_int_id (loaded.map (fun u => u.userId))
    let us := loaded ++ [defaultAdmin admin_id]
    (us, some us)

/-- The users collection held by Storage immediately after __init__. -/
def initUsers (loaded : List User) : List User :=
  (initUsersSave loaded).1

/-- Number of admin-flagged users in a collection. -/
def countAdmins (l : List User) : Nat :=
  (l.filter (fun u => u.is_admin)).length

/-- A concrete admin-flagged user, used in counterexamples and witnesses. -/
def adminA : User :=
  { userId := 1, email := "a@x.com", phone := "", password := "pa",
    nickname := "A", avatar := "", is_admin := true, favorites := [] }

/-- A second concrete admin-flagged user. -/
def adminB : User :=
  { userId := 2, email := "b@x.com", phone := "", password := "pb",
    nickname := "B", avatar := "", is_admin := true, favorites := [] }

/-- C2 counterexample: a users document that already contains two
admin-flagged users is loaded unchanged, so after Storage.__init__ the
users collection has two admins, not exactly one. -/
theorem C2_counterexample : countAdmins (initUsers [adminA, adminB]) = 2 ∧
    ¬ countAdmins (initUsers [adminA, adminB]) = 1 := by decide

/-- C2 (amended): after Storage.__init__ at least one user has the admin
flag; when the given document has at most one admin-flagged user, exactly
one user has it. -/
theorem C2_admin_flag_after_init (loaded : List User) :
    1 ≤ countAdmins (initUsers loaded) ∧
      (countAdmins loaded ≤ 1 → countAdmins (initUsers loaded) = 1) := by
  unfold initUsers initUsersSave countAdmins
  by_cases h : loaded.any (fun u => u.is_admin) = true
  · simp only [h, if_true]
    obtain ⟨u, hu, hadm⟩ := List.any_eq_true.mp h
    have hmem : u ∈ loaded.filter (fun u => u.is_admin) :=
      List.mem_filter.mpr ⟨hu, hadm⟩
    have hpos : 0 < (loaded.filter (fun u => u.is_admin)).length :=
      List.length_pos.mpr (List.ne_nil_of_mem hmem)
    exact ⟨hpos, fun hle => le_antisymm hle hpos⟩
  · simp only [h, if_false]
    have hnil : loaded.filter (fun u => u.is_admin) = [] := by
      rw [List.filter_eq_nil_iff]
      intro u hu
      have := (List.any_eq_true (l := loaded)).not.mp
        (by simpa using h)
      push_neg at this
      simpa using this u hu
    simp [List.filter_append, hnil, defaultAdmin]

/-- Witness for C2 at the empty document. -/
theorem C2_witness : countAdmins (initUsers []) = 1 :=
  (C2_admin_flag_after_init []).2 (by decide)

/-- C3: when no loaded user has the admin flag, Storage.__init__ appends
exactly one synthesized administrator (fixed email and nickname, empty
phone, admin flag set, empty favorites, id from the Identifier Allocator)
after the preserved loaded users and persists the resulting users
collection before returning; when some loaded user has the admin flag,
nothing is synthesized, the collection is unchanged and nothing saved. -/
theorem C3_admin_bootstrap (loaded : List User) :
    (loaded.any (fun u => u.is_admin) = false →
      ∃ a : User,
        initUsers loaded = loaded ++ [a] ∧
        (initUsersSave loaded).2 = some (loaded ++ [a]) ∧
        a.email = "admin@example.com" ∧ a.nickname = "Administrator" ∧
        a.phone = "" ∧ a.is_admin = true ∧ a.favorites = [] ∧
        a.userId = ensure_int_id (loaded.map (fun u => u.userId))) ∧
    (loaded.any (fun u => u.is_admin) = true →
      initUsers loaded = loaded ∧ (initUsersSave loaded).2 = none) := by
  constructor
  · intro h
    refine ⟨defaultAdmin (ensure_int_id (loaded.map (fun u : User => u.userId))),
      ?_, ?_, rfl, rfl, rfl, rfl, rfl, rfl⟩
    · simp [initUsers, initUsersSave, h]
    · simp [initUsersSave, h]
  · intro h
    constructor
    · simp [initUsers, initUsersSave, h]
    · simp [initUsersSave, h]

/-- Witness for C3: bootstrap fires on the empty document and performs no
synthesis on a document already holding an admin. -/
theorem C3_witness :
    (∃ a : User,
      initUsers [] = [] ++ [a] ∧
      (initUsersSave []).2 = some ([] ++ [a]) ∧
      a.email = "admin@example.com" ∧ a.nickname = "Administrator" ∧
      a.phone = "" ∧ a.is_admin = true ∧ a.favorites = [] ∧
      a.userId = ensure_int_id (([] : List User).map (fun u => u.userId))) ∧
    initUsers [adminA] = [adminA] :=
  ⟨(C3_admin_bootstrap []).1 (by decide),
   ((C3_admin_bootstrap [adminA]).2 (by decide)).1⟩

/-- C10: whenever the bootstrap synthesizes the default administrator, its
concrete field values are fixed, including the plaintext password
"admin": email "admin@example.com", empty phone, password "admin",
nickname "Administrator", empty avatar, admin flag set, empty favorites. -/
theorem C10_default_admin_fields (loaded : List User)
    (h : loaded.any (fun u => u.is_admin) = false) :
    ∃ a : User, initUsers loaded = loaded ++ [a] ∧
      a.email = "admin@example.com" ∧ a.phone = "" ∧ a.password = "admin" ∧
      a.nickname = "Administrator" ∧ a.avatar = "" ∧ a.is_admin = true ∧
      a.favorites = [] := by
  refine ⟨defaultAdmin (ensure_int_id (loaded.map (fun u => u.userId))),
    ?_, rfl, rfl, rfl, rfl, rfl, rfl, rfl⟩
  simp [initUsers, initUsersSave, h]

/-- Witness for C10 at the empty document. -/
theorem C10_witness :
    ∃ a : User, initUsers [] = [] ++ [a] ∧
      a.email = "admin@example.com" ∧ a.phone = "" ∧ a.password = "admin" ∧
      a.nickname = "Administrator" ∧ a.avatar = "" ∧ a.is_admin = true ∧
      a.favorites = [] :=
  C10_default_admin_fields [] (by decide)

/-- main.py lines 712-720 and identically 806-813: drop every product
carrying the given id and, for each user holding the id among their
favorites, remove it there (Python list.remove drops only the first
occurrence, embedded as List.erase). -/
def deleteProductById (s : Storage) (pid : Int) : Storage :=
  { products := s.products.filter (fun p => p.productId != pid)
    users := s.users.map (fun u =>
      if pid ∈ u.favorites then { u with favorites := u.favorites.erase pid }
      else u) }

/-- main.py lines 709-722: the owner delete path after the confirmation
dialog. -/
def confirm_delete (s : Storage) (product : Product) : Storage :=
  deleteProductById s product.productId

/-- main.py lines 799-815: the admin product delete path for the selected
index; an empty selection leaves the state unchanged. -/
def del_product_admin (s : Storage) (idx : Nat) : Storage :=
  match s.products[idx]? with
  | none => s
  | some target => deleteProductById s target.productId

/-- main.py lines 767-785: the admin user delete path for the selected
index. A selected admin-flagged target is refused; otherwise every
product whose sellerId equals the target's userId is dropped and the user
at the index deleted. No favorites cleanup happens on this path. -/
def del_user (s : Storage) (idx : Nat) : Storage :=
  match s.users[idx]? with
  | none => s
  | some target =>
    if target.is_admin then s
    else
      { products := s.products.filter (fun p => p.sellerId != target.userId)
        users := s.users.eraseIdx idx }

/-- Referential integrity of favorites: every id in any user's favorites
names some product present in the products collection. -/
def noDanglingFavorites (s : Storage) : Bool :=
  s.users.all (fun u => u.favorites.all (fun pid =>
    s.products.any (fun p => p.productId == pid)))

/-- A non-admin seller owning product 201. -/
def sellerS : User :=
  { userId := 10, email := "s@x.com", phone := "", password := "ps",
    nickname := "S", avatar := "", is_admin := false, favorites := [] }

/-- A non-admin user whose favorites hold product 201. -/
def favF : User :=
  { userId := 11, email := "f@x.com", phone := "", password := "pf",
    nickname := "F", avatar := "", is_admin := false, favorites := [201] }

/-- Product 201, sold by user 10. -/
def prod201 : Product :=
  { productId := 201, name := "P", category := "c", description := "d",
    price := 1, images := [], sellerId := 10, comments := [] }

/-- State before the cascading user delete of C1's failing input. -/
def stateC1 : Storage :=
  { users := [adminA, sellerS, favF], products := [prod201] }

/-- C1 failing input: stateC1 satisfies the favorites integrity invariant,
yet deleting seller S (index 1) through the admin cascade removes product
201 while user F's favorites still reference it, so the invariant is
broken after the delete path completes. -/
theorem C1_del_user_dangling_favorite :
    noDanglingFavorites stateC1 = true ∧
      noDanglingFavorites (del_user stateC1 1) = false := by decide

/-- C4: the admin user delete removes the selected non-admin user (all
other users kept in order) together with exactly the products whose
sellerId equals that user's id, and refuses a selected admin-flagged
user, changing nothing. -/
theorem C4_del_user_spec (s : Storage) (idx : Nat) (target : User)
    (hidx : s.users[idx]? = some target) :
    (target.is_admin = false →
      (del_user s idx).users = s.users.take idx ++ s.users.drop (idx + 1) ∧
      (∀ p, p ∈ (del_user s idx).products ↔
        p ∈ s.products ∧ p.sellerId ≠ target.userId)) ∧
    (target.is_admin = true → del_user s idx = s) := by
  constructor
  · intro h
    constructor
    · simp [del_user, hidx, h, List.eraseIdx_eq_take_drop_succ]
    · intro p
      simp [del_user, hidx, h, List.mem_filter, bne_iff_ne]
  · intro h
    simp [del_user, hidx, h]

/-- State used by the C4 witness. -/
def stateC4 : Storage :=
  { users := [adminA, sellerS], products := [prod201] }

/-- Witness for C4: deleting non-admin seller S at index 1 keeps only the
admin, and selecting the admin at index 0 is refused. -/
theorem C4_witness :
    (del_user stateC4 1).users = stateC4.users.take 1 ++ stateC4.users.drop 2 ∧
      del_user stateC4 0 = stateC4 :=
  ⟨((C4_del_user_spec stateC4 1 sellerS (by decide)).1 (by decide)).1,
   (C4_del_user_spec stateC4 0 adminA (by decide)).2 (by decide)⟩

/-- A user whose favorites hold product 201 twice. -/
def dupFavUser : User :=
  { userId := 20, email := "x@x.com", phone := "", password := "pw",
    nickname := "X", avatar := "", is_admin := false, favorites := [201, 201] }

/-- State for the C5 counterexample: duplicated favorite entry. -/
def stateC5 : Storage :=
  { users := [dupFavUser], products := [prod201] }

/-- C5 counterexample: deleting product 201 does not remove the id from
every user's favorites list: with favorites [201, 201] only the first
occurrence is removed and 201 survives in the list. -/
theorem C5_counterexample :
    ¬ (∀ u ∈ (deleteProductById stateC5 201).users,
        (201 : Int) ∉ u.favorites) := by decide

/-- The per-user favorites update of the delete paths is the
first-occurrence erase, also when the guard fails. -/
theorem favoriteUpdate_eq_erase (u : User) (pid : Int) :
    (if pid ∈ u.favorites then { u with favorites := u.favorites.erase pid }
      else u) = { u with favorites := u.favorites.erase pid } := by
  split
  · rfl
  · next h => rw [List.erase_of_not_mem h]

/-- C5 (amended): deleting a product by id removes every product with that
productId (all other products kept), and removes the FIRST occurrence of
the id from each user's favorites, all other fields and entries
unchanged; hence whenever no user's favorites list holds the id more than
once — in particular for favorites exactly [pid] — the id is absent from
every favorites list afterwards. -/
theorem C5_delete_product (s : Storage) (pid : Int) :
    (∀ p, p ∈ (deleteProductById s pid).products ↔
      p ∈ s.products ∧ p.productId ≠ pid) ∧
    ((deleteProductById s pid).users =
      s.users.map (fun u => { u with favorites := u.favorites.erase pid })) ∧
    (∀ v ∈ (deleteProductById s pid).users, ∃ u ∈ s.users,
      v = { u with favorites := u.favorites.erase pid } ∧
      ∀ q : Int, q ≠ pid → v.favorites.count q = u.favorites.count q) ∧
    ((∀ u ∈ s.users, u.favorites.count pid ≤ 1) →
      ∀ v ∈ (deleteProductById s pid).users, pid ∉ v.favorites) := by
  have husers : (deleteProductById s pid).users =
      s.users.map (fun u => { u with favorites := u.favorites.erase pid }) := by
    simp only [deleteProductById]
    exact List.map_congr_left (fun u _ => favoriteUpdate_eq_erase u pid)
  refine ⟨?_, husers, ?_, ?_⟩
  · intro p
    simp [deleteProductById, List.mem_filter, bne_iff_ne]
  · intro v hv
    rw [husers] at hv
    obtain ⟨u, hu, rfl⟩ := List.mem_map.mp hv
    exact ⟨u, hu, rfl, fun q hq => List.count_erase_of_ne hq u.favorites⟩
  · intro hcount v hv
    rw [husers] at hv
    obtain ⟨u, hu, rfl⟩ := List.mem_map.mp hv
    have h1 : u.favorites.count pid ≤ 1 := hcount u hu
    have h2 : (u.favorites.erase pid).count pid = u.favorites.count pid - 1 :=
      List.count_erase_self pid u.favorites
    have h0 : (u.favorites.erase pid).count pid = 0 := by omega
    exact List.count_eq_zero.mp h0

/-- State for the C5 witness: favorites exactly [201]. -/
def stateC5w : Storage :=
  { users := [favF], products := [prod201] }

/-- Witness for C5: after deleting product 201 from stateC5w, the
resulting user's favorites list no longer holds 201 (it is empty). -/
theorem C5_witness :
    (201 : Int) ∉ (User.mk 11 "f@x.com" "" "pf" "F" "" false []).favorites :=
  (C5_delete_product stateC5w 201).2.2.2 (by decide) _ (by decide)

/-- JSON values as written and read by json.dump/json.load for the two
documents (main.py lines 102-122). Python ints and floats are distinct
JSON-level values; the text layer round-trips both exactly (floats via
shortest repr) and with ensure_ascii=False keeps Unicode text verbatim,
so it is modelled by this value type. -/
inductive Json where
  | jnull : Json
  | jbool : Bool → Json
  | jint : Int → Json
  | jnum : Rat → Json
  | jstr : String → Json
  | jarr : List Json → Json
  | jobj : List (String × Json) → Json

/-- Reading a JSON value as a Python int. -/
def Json.asInt : Json → Option Int
  | .jint n => some n
  | _ => none

/-- Reading a JSON value as a Python float. -/
def Json.asNum : Json → Option Rat
  | .jnum q => some q
  | _ => none

/-- Reading a JSON value as a string. -/
def Json.asStr : Json → Option String
  | .jstr s => some s
  | _ => none

/-- Reading a JSON value as a bool. -/
def Json.asBool : Json → Option Bool
  | .jbool b => some b
  | _ => none

/-- Reading a JSON array of ints (the favorites field). -/
def decodeIntList : List Json → Option (List Int)
  | [] => some []
  | j :: rest => do
    let n ← j.asInt
    let ns ← decodeIntList rest
    pure (n :: ns)

/-- Reading a JSON array of strings (the images field). -/
def decodeStrList : List Json → Option (List String)
  | [] => some []
  | j :: rest => do
    let s ← j.asStr
    let ss ← decodeStrList rest
    pure (s :: ss)

/-- asdict on a comment dict: the three keys in insertion order. -/
def commentToJson (c : Comment) : Json :=
  .jobj [("userId", .jint c.userId), ("nickname", .jstr c.nickname),
         ("text", .jstr c.text)]

/-- Reconstructing a comment dict from its JSON object. -/
def commentOfJson : Json → Option Comment
  | .jobj fs => do
    let uid ← (List.lookup "userId" fs).bind Json.asInt
    let nick ← (List.lookup "nickname" fs).bind Json.asStr
    let txt ← (List.lookup "text" fs).bind Json.asStr
    pure { userId := uid, nickname := nick, text := txt }
  | _ => none

/-- Reading a JSON array of comment objects. -/
def decodeCommentList : List Json → Option (List Comment)
  | [] => some []
  | j :: rest => do
    let c ← commentOfJson j
    let cs ← decodeCommentList rest
    pure (c :: cs)

/-- asdict(u) for a User (main.py line 111): the eight dataclass fields in
declaration order. -/
def userToJson (u : User) : Json :=
  .jobj [("userId", .jint u.userId), ("email", .jstr u.email),
         ("phone", .jstr u.phone), ("password", .jstr u.password),
         ("nickname", .jstr u.nickname), ("avatar", .jstr u.avatar),
         ("is_admin", .jbool u.is_admin),
         ("favorites", .jarr (u.favorites.map Json.jint))]

/-- User(**u) on a loaded JSON object (main.py line 107): each field
fetched by keyword and typed; any missing or mistyped field fails. -/
def userOfJson : Json → Option User
  | .jobj fs => do
    let uid ← (List.lookup "userId" fs).bind Json.asInt
    let email ← (List.lookup "email" fs).bind Json.asStr
    let phone ← (List.lookup "phone" fs).bind Json.asStr
    let password ← (List.lookup "password" fs).bind Json.asStr
    let nickname ← (List.lookup "nickname" fs).bind Json.asStr
    let avatar ← (List.lookup "avatar" fs).bind Json.asStr
    let adm ← (List.lookup "is_admin" fs).bind Json.asBool
    let favs ← match List.lookup "favorites" fs with
      | some (.jarr xs) => decodeIntList xs
      | _ => none
    pure { userId := uid, email := email, phone := phone,
           password := password, nickname := nickname, avatar := avatar,
           is_admin := adm, favorites := favs }
  | _ => none

/-- asdict(p) for a Product (main.py line 122): the eight dataclass fields
in declaration order. -/
def productToJson (p : Product) : Json :=
  .jobj [("productId", .jint p.productId), ("name", .jstr p.name),
         ("category", .jstr p.category), ("description", .jstr p.description),
         ("price", .jnum p.price),
         ("images", .jarr (p.images.map Json.jstr)),
         ("sellerId", .jint p.sellerId),
         ("comments", .jarr (p.comments.map commentToJson))]

/-- Product(**p) on a loaded JSON object (main.py line 118). -/
def productOfJson : Json → Option Product
  | .jobj fs => do
    let pid ← (List.lookup "productId" fs).bind Json.asInt
    let name ← (List.lookup "name" fs).bind Json.asStr
    let category ← (List.lookup "category" fs).bind Json.asStr
    let description ← (List.lookup "description" fs).bind Json.asStr
    let price ← (List.lookup "price" fs).bind Json.asNum
    let images ← match List.lookup "images" fs with
      | some (.jarr xs) => decodeStrList xs
      | _ => none
    let sid ← (List.lookup "sellerId" fs).bind Json.asInt
    let comments ← match List.lookup "comments" fs with
      | some (.jarr xs) => decodeCommentList xs
      | _ => none
    pure { productId := pid, name := name, category := category,
           description := description, price := price, images := images,
           sellerId := sid, comments := comments }
  | _ => none

/-- save_users (main.py lines 109-111): the document written is the array
of asdict records of the collection, in order. -/
def save_users (us : List User) : Json :=
  .jarr (us.map userToJson)

/-- The list comprehension [User(**u) for u in data]: fails as a whole on
the first bad record. -/
def decodeUsers : List Json → Option (List User)
  | [] => some []
  | j :: rest => do
    let u ← userOfJson j
    let us ← decodeUsers rest
    pure (u :: us)

/-- load_users (main.py lines 102-107) applied to an existing document. -/
def load_users (doc : Json) : Option (List User) :=
  match doc with
  | .jarr xs => decodeUsers xs
  | _ => none

/-- save_products (main.py lines 120-122). -/
def save_products (ps : List Product) : Json :=
  .jarr (ps.map productToJson)

/-- The list comprehension [Product(**p) for p in data]. -/
def decodeProducts : List Json → Option (List Product)
  | [] => some []
  | j :: rest => do
    let p ← productOfJson j
    let ps ← decodeProducts rest
    pure (p :: ps)

/-- load_products (main.py lines 113-118) applied to an existing
document. -/
def load_products (doc : Json) : Option (List Product) :=
  match doc with
  | .jarr xs => decodeProducts xs
  | _ => none

/-- Int arrays decode back to what was encoded. -/
theorem decodeIntList_map (l : List Int) :
    decodeIntList (l.map Json.jint) = some l := by
  induction l with
  | nil => rfl
  | cons x xs ih => simp [decodeIntList, Json.asInt, ih]

/-- String arrays decode back to what was encoded. -/
theorem decodeStrList_map (l : List String) :
    decodeStrList (l.map Json.jstr) = some l := by
  induction l with
  | nil => rfl
  | cons x xs ih => simp [decodeStrList, Json.asStr, ih]

/-- A comment object decodes back to the encoded comment. -/
theorem commentOfJson_commentToJson (c : Comment) :
    commentOfJson (commentToJson c) = some c := by
  simp [commentOfJson, commentToJson, List.lookup, Json.asInt, Json.asStr]

/-- Comment arrays decode back to what was encoded. -/
theorem decodeCommentList_map (l : List Comment) :
    decodeCommentList (l.map commentToJson) = some l := by
  induction l with
  | nil => rfl
  | cons c cs ih => simp [decodeCommentList, commentOfJson_commentToJson, ih]

/-- A user record decodes back to the encoded user. -/
theorem userOfJson_userToJson (u : User) :
    userOfJson (userToJson u) = some u := by
  simp [userOfJson, userToJson, List.lookup, Json.asInt, Json.asStr,
    Json.asBool, decodeIntList_map]

/-- A product record decodes back to the encoded product. -/
theorem productOfJson_productToJson (p : Product) :
    productOfJson (productToJson p) = some p := by
  simp [productOfJson, productToJson, List.lookup, Json.asInt, Json.asStr,
    Json.asNum, decodeStrList_map, decodeCommentList_map]

/-- C7: round-trip persistence. For every collection of users and of
products — text fields being arbitrary Unicode strings — saving and then
loading from the same path returns a collection field-for-field equal to
the original, in the same order. -/
theorem C7_round_trip (us : List User) (ps : List Product) :
    load_users (save_users us) = some us ∧
      load_products (save_products ps) = some ps := by
  constructor
  · show decodeUsers (us.map userToJson) = some us
    induction us with
    | nil => rfl
    | cons u rest ih => simp [decodeUsers, userOfJson_userToJson, ih]
  · show decodeProducts (ps.map productToJson) = some ps
    induction ps with
    | nil => rfl
    | cons p rest ih => simp [decodeProducts, productOfJson_productToJson, ih]

/-- IMAGES_DIR (main.py line 29). -/
def IMAGES_DIR : String := "images"

/-- os.path.join on POSIX for a directory and a relative name. -/
def joinPath (d b : String) : String := d ++ "/" ++ b

/-- os.path.basename: the characters after the last slash. -/
def basenameOf (p : String) : String :=
  ((p.toList.reverse.takeWhile (fun c => c ≠ '/')).reverse).asString

/-- os.path.splitext applied to a basename: split at the last dot when
some earlier character is not a dot, otherwise no extension (CPython
genericpath._splitext with an empty directory part). -/
def splitext (b : String) : String × String :=
  let cs := b.toList
  match cs.reverse.findIdx? (fun c => c = '.') with
  | none => (b, "")
  | some j =>
    let k := cs.length - 1 - j
    if (cs.take k).any (fun c => c ≠ '.') then
      ((cs.take k).asString, (cs.drop k).asString)
    else (b, "")

/-- str.replace("\\", "/") for the one-character pattern: pointwise
replacement of backslashes by forward slashes (main.py line 148). -/
def fixSeps (s : String) : String :=
  (s.toList.map (fun c => if c = '\\' then '/' else c)).asString

/-- The candidate names tried by the collision loop, in order: the
basename itself, then name_1.ext, name_2.ext, ... -/
def candidate (b name ext : String) : Nat → String
  | 0 => b
  | Nat.succ k => name ++ "_" ++ Nat.repr (k + 1) ++ ext

/-- The while loop of main.py lines 141-145 with explicit fuel: cand is
the candidate under test, i the next numeric suffix; none only when the
fuel runs out while names keep colliding. -/
def findFreeName (fs : List String) (name ext : String) :
    Nat → String → Nat → Option String
  | 0, cand, _ =>
    if joinPath IMAGES_DIR cand ∈ fs then none else some cand
  | Nat.succ f, cand, i =>
    if joinPath IMAGES_DIR cand ∈ fs then
      findFreeName fs name ext f (name ++ "_" ++ Nat.repr i ++ ext) (i + 1)
    else some cand

/-- The importer body before the enclosing try/except (main.py lines
134-148) over a filesystem given as the list of existing paths: result
(or raised exception, when the copy fails) paired with the filesystem
after the run; none only on fuel exhaustion. -/
def copyImageBody (fs : List String) (copyOk : Bool) (src : String)
    (fuel : Nat) : Option (Except Unit (Option String) × List String) :=
  if src = "" then some (.ok none, fs)
  else if src ∉ fs then some (.ok none, fs)
  else
    match findFreeName fs (splitext (basenameOf src)).1
        (splitext (basenameOf src)).2 fuel (basenameOf src) 1 with
    | none => none
    | some cand =>
      if copyOk then
        some (.ok (some (fixSeps (joinPath IMAGES_DIR cand))),
          fs ++ [joinPath IMAGES_DIR cand])
      else some (.error (), fs)

/-- copy_image_to_storage (main.py lines 128-151): the try/except turns
every raised exception into the sentinel none; the filesystem after the
call is returned alongside. -/
def copy_image_to_storage (fs : List String) (copyOk : Bool) (src : String)
    (fuel : Nat) : Option (Option String × List String) :=
  (copyImageBody fs copyOk src fuel).map (fun r =>
    match r.1 with
    | .error _ => (none, r.2)
    | .ok v => (v, r.2))

/-- C8: the importer never raises to its caller. An empty source path and
a non-existent source path return the sentinel none with the filesystem
untouched; a raised exception anywhere in the body is swallowed into the
sentinel none; in particular every terminating run with a failing copy
operation returns none. -/
theorem C8_importer_never_raises (fs : List String) (copyOk : Bool)
    (src : String) (fuel : Nat) :
    (src = "" → copy_image_to_storage fs copyOk src fuel = some (none, fs)) ∧
    (src ∉ fs → copy_image_to_storage fs copyOk src fuel = some (none, fs)) ∧
    (∀ e r, copyImageBody fs copyOk src fuel = some (.error e, r) →
      copy_image_to_storage fs copyOk src fuel = some (none, r)) ∧
    (copyOk = false → ∀ v fs2,
      copy_image_to_storage fs copyOk src fuel = some (v, fs2) → v = none) := by
  refine ⟨?_, ?_, ?_, ?_⟩
  · intro h
    simp [copy_image_to_storage, copyImageBody, h]
  · intro h
    by_cases hs : src = ""
    · simp [copy_image_to_storage, copyImageBody, hs]
    · simp [copy_image_to_storage, copyImageBody, hs, h]
  · intro e r h
    simp [copy_image_to_storage, h]
  · rintro rfl v fs2 h
    by_cases hs : src = ""
    · simp [copy_image_to_storage, copyImageBody, hs] at h
      exact h.1.symm
    · by_cases hm : src ∈ fs
      · unfold copy_image_to_storage copyImageBody at h
        rw [if_neg hs, if_neg (not_not_intro hm)] at h
        rcases hfind : findFreeName fs (splitext (basenameOf src)).1
            (splitext (basenameOf src)).2 fuel (basenameOf src) 1 with _ | cand
        · rw [hfind] at h
          simp at h
        · rw [hfind] at h
          simp at h
          exact h.1.symm
      · simp [copy_image_to_storage, copyImageBody, hs, hm] at h
        exact h.1.symm


/-- Witness for C8: a non-existent source path returns the sentinel with
the filesystem untouched. -/
theorem C8_witness :
    copy_image_to_storage ["x"] true "missing.png" 0 = some (none, ["x"]) :=
  (C8_importer_never_raises ["x"] true "missing.png" 0).2.1 (by decide)

/-- Any candidate accepted by the collision loop is free: its managed
path does not exist yet. -/
theorem findFreeName_not_mem (fs : List String) (name ext : String) :
    ∀ fuel cand i c, findFreeName fs name ext fuel cand i = some c →
      joinPath IMAGES_DIR c ∉ fs := by
  intro fuel
  induction fuel with
  | zero =>
    intro cand i c h
    by_cases hm : joinPath IMAGES_DIR cand ∈ fs
    · simp [findFreeName, hm] at h
    · simp [findFreeName, hm] at h
      exact h ▸ hm
  | succ f ih =>
    intro cand i c h
    by_cases hm : joinPath IMAGES_DIR cand ∈ fs
    · simp only [findFreeName, if_pos hm] at h
      exact ih _ _ _ h
    · simp [findFreeName, hm] at h
      exact h ▸ hm

/-- The collision loop started at candidate m returns the first free
candidate: every candidate from position m up to the accepted one was
taken. -/
theorem findFreeName_first (fs : List String) (b name ext : String) :
    ∀ fuel m c,
      findFreeName fs name ext fuel (candidate b name ext m) (m + 1) = some c →
      ∃ k, m ≤ k ∧ c = candidate b name ext k ∧
        joinPath IMAGES_DIR c ∉ fs ∧
        ∀ j, m ≤ j → j < k →
          joinPath IMAGES_DIR (candidate b name ext j) ∈ fs := by
  intro fuel
  induction fuel with
  | zero =>
    intro m c h
    by_cases hm : joinPath IMAGES_DIR (candidate b name ext m) ∈ fs
    · simp [findFreeName, hm] at h
    · simp [findFreeName, hm] at h
      exact ⟨m, le_refl m, h.symm, h ▸ hm,
        fun j hj1 hj2 => absurd hj2 (by omega)⟩
  | succ f ih =>
    intro m c h
    by_cases hm : joinPath IMAGES_DIR (candidate b name ext m) ∈ fs
    · simp only [findFreeName, if_pos hm] at h
      have hcand : name ++ "_" ++ Nat.repr (m + 1) ++ ext =
          candidate b name ext (m + 1) := rfl
      rw [hcand] at h
      obtain ⟨k, hk1, hk2, hk3, hk4⟩ := ih (m + 1) c h
      refine ⟨k, by omega, hk2, hk3, ?_⟩
      intro j hj1 hj2
      rcases eq_or_lt_of_le hj1 with rfl | hj
      · exact hm
      · exact hk4 j (by omega) hj2
    · simp [findFreeName, hm] at h
      exact ⟨m, le_refl m, h.symm, h ▸ hm,
        fun j hj1 hj2 => absurd hj2 (by omega)⟩

/-- Structure of every successful import: the accepted candidate is the
first free element of the candidate sequence, the copy lands on a path
that did not exist before, and the returned path is the separator-fixed
managed path. -/
theorem copy_image_success (fs : List String) (src : String) (fuel : Nat)
    (ret : String) (fs2 : List String)
    (h : copy_image_to_storage fs true src fuel = some (some ret, fs2)) :
    ∃ c k, c = candidate (basenameOf src) (splitext (basenameOf src)).1
        (splitext (basenameOf src)).2 k ∧
      joinPath IMAGES_DIR c ∉ fs ∧
      (∀ j < k, joinPath IMAGES_DIR (candidate (basenameOf src)
        (splitext (basenameOf src)).1 (splitext (basenameOf src)).2 j) ∈ fs) ∧
      fs2 = fs ++ [joinPath IMAGES_DIR c] ∧
      ret = fixSeps (joinPath IMAGES_DIR c) := by
  unfold copy_image_to_storage copyImageBody at h
  by_cases hs : src = ""
  · simp [hs] at h
  · rw [if_neg hs] at h
    by_cases hm : src ∈ fs
    · rw [if_neg (not_not_intro hm)] at h
      rcases hfind : findFreeName fs (splitext (basenameOf src)).1
          (splitext (basenameOf src)).2 fuel (basenameOf src) 1 with _ | cand
      · rw [hfind] at h
        simp at h
      · rw [hfind] at h
        simp only [if_pos rfl, if_true, Option.map_some] at h
        simp at h
        obtain ⟨hret, hfs2⟩ := h
        have hstart : basenameOf src = candidate (basenameOf src)
            (splitext (basenameOf src)).1 (splitext (basenameOf src)).2 0 := rfl
        rw [hstart] at hfind
        obtain ⟨k, _, hk2, hk3, hk4⟩ :=
          findFreeName_first fs (basenameOf src) (splitext (basenameOf src)).1
            (splitext (basenameOf src)).2 fuel 0 cand hfind
        exact ⟨cand, k, hk2, hk3, fun j hj => hk4 j (Nat.zero_le j) hj,
          hfs2.symm, hret.symm⟩
    · simp [hm] at h

/-- The separator fix leaves no backslash in the returned path. -/
theorem fixSeps_no_backslash (s : String) : '\\' ∉ (fixSeps s).toList := by
  intro hmem
  unfold fixSeps at hmem
  have hmem2 : '\\' ∈ s.toList.map (fun c => if c = '\\' then '/' else c) :=
    hmem
  obtain ⟨c, _, hc⟩ := List.mem_map.mp hmem2
  by_cases h : c = '\\' <;> simp [h] at hc

/-- Decimal rendering of a natural number, most significant digit
first. -/
def decRepr (n : Nat) : List Char :=
  if _h : n < 10 then [Nat.digitChar n]
  else decRepr (n / 10) ++ [Nat.digitChar (n % 10)]
decreasing_by exact Nat.div_lt_self (by omega) (by omega)

/-- One-step unfolding of decRepr. -/
theorem decRepr_eq (n : Nat) : decRepr n =
    if n < 10 then [Nat.digitChar n]
    else decRepr (n / 10) ++ [Nat.digitChar (n % 10)] := by
  rw [decRepr]
  split <;> simp

/-- A decimal rendering is never empty. -/
theorem decRepr_ne_nil (n : Nat) : decRepr n ≠ [] := by
  rw [decRepr_eq]
  split <;> simp

/-- Core's digit printer agrees with decRepr given sufficient fuel. -/
theorem toDigitsCore_eq_decRepr (f : Nat) :
    ∀ n acc, n < f → Nat.toDigitsCore 10 f n acc = decRepr n ++ acc := by
  induction f with
  | zero => omega
  | succ f ih =>
    intro n acc h
    by_cases h10 : n / 10 = 0
    · have hn10 : n < 10 := (Nat.div_eq_zero_iff (by omega)).mp h10
      simp only [Nat.toDigitsCore, h10, if_true]
      rw [decRepr_eq, if_pos hn10, Nat.mod_eq_of_lt hn10]
      rfl
    · have hge : 10 ≤ n := by
        rcases Nat.lt_or_ge n 10 with hl | hg
        · exact absurd ((Nat.div_eq_zero_iff (by omega)).mpr hl) h10
        · exact hg
      have hrec : n / 10 < f :=
        lt_of_lt_of_le (Nat.div_lt_self (by omega) (by omega)) (by omega)
      simp only [Nat.toDigitsCore, h10, if_false]
      rw [ih (n / 10) (Nat.digitChar (n % 10) :: acc) hrec]
      conv_rhs => rw [decRepr_eq, if_neg (by omega)]
      simp

/-- Nat.repr renders via decRepr. -/
theorem natRepr_eq_decRepr (n : Nat) : Nat.repr n = (decRepr n).asString := by
  unfold Nat.repr Nat.toDigits
  rw [toDigitsCore_eq_decRepr (n + 1) n [] (by omega)]
  simp

/-- digitChar is injective on digits. -/
theorem digitChar_inj (a b : Nat) (ha : a < 10) (hb : b < 10)
    (h : Nat.digitChar a = Nat.digitChar b) : a = b := by
  have key : ∀ x : Fin 10, ∀ y : Fin 10,
      Nat.digitChar x = Nat.digitChar y → x = y := by decide
  have := key ⟨a, ha⟩ ⟨b, hb⟩ h
  simpa [Fin.ext_iff] using this

/-- Decimal renderings of distinct naturals are distinct. -/
theorem decRepr_injective : ∀ m n : Nat, decRepr m = decRepr n → m = n := by
  intro m
  induction m using Nat.strong_induction_on with
  | _ m ih =>
    intro n h
    by_cases hm : m < 10 <;> by_cases hn : n < 10
    · rw [decRepr_eq m, decRepr_eq n, if_pos hm, if_pos hn] at h
      simp at h
      exact digitChar_inj m n hm hn h
    · rw [decRepr_eq m, decRepr_eq n, if_pos hm, if_neg hn] at h
      rcases hl : decRepr (n / 10) with _ | ⟨c, cs⟩
      · exact absurd hl (decRepr_ne_nil _)
      · rw [hl] at h
        simp at h
    · rw [decRepr_eq m, decRepr_eq n, if_neg hm, if_pos hn] at h
      rcases hl : decRepr (m / 10) with _ | ⟨c, cs⟩
      · exact absurd hl (decRepr_ne_nil _)
      · rw [hl] at h
        simp at h
    · rw [decRepr_eq m, decRepr_eq n, if_neg hm, if_neg hn] at h
      obtain ⟨h1, h2⟩ := List.append_inj' h (by simp)
      have hmod : m % 10 = n % 10 :=
        digitChar_inj _ _ (Nat.mod_lt _ (by omega)) (Nat.mod_lt _ (by omega))
          (by simpa using h2)
      have hdiv : m / 10 = n / 10 :=
        ih (m / 10) (Nat.div_lt_self (by omega) (by omega)) (n / 10) h1
      omega

/-- Nat.repr is injective. -/
theorem natRepr_injective (m n : Nat) (h : Nat.repr m = Nat.repr n) :
    m = n := by
  apply decRepr_injective
  have := congrArg String.data h
  rwa [natRepr_eq_decRepr, natRepr_eq_decRepr] at this

/-- A rendered decimal number is at least one character long. -/
theorem natRepr_length_pos (x : Nat) : 1 ≤ (Nat.repr x).length := by
  rw [natRepr_eq_decRepr]
  have heq : (List.asString (decRepr x)).length = (decRepr x).length := rfl
  rw [heq]
  exact List.length_pos.mpr (decRepr_ne_nil x)

/-- Distinct indices give distinct candidate names once the basename is
the splitext recomposition name ++ ext. -/
theorem candidate_inj (name ext : String) (i j : Nat)
    (h : candidate (name ++ ext) name ext i =
      candidate (name ++ ext) name ext j) : i = j := by
  match i, j with
  | 0, 0 => rfl
  | 0, j + 1 =>
    have hlen := congrArg String.length h
    simp only [candidate, String.length_append] at hlen
    have hr := natRepr_length_pos (j + 1)
    have hu : ("_" : String).length = 1 := rfl
    omega
  | i + 1, 0 =>
    have hlen := congrArg String.length h
    simp only [candidate, String.length_append] at hlen
    have hr := natRepr_length_pos (i + 1)
    have hu : ("_" : String).length = 1 := rfl
    omega
  | i + 1, j + 1 =>
    have hd := congrArg String.data h
    simp only [candidate, String.data_append, List.append_assoc] at hd
    have hd2 := List.append_cancel_left (List.append_cancel_left hd)
    have hd3 := List.append_cancel_right hd2
    have := natRepr_injective (i + 1) (j + 1) (String.ext hd3)
    omega

/-- joinPath is injective in the file name. -/
theorem joinPath_inj (d x y : String) (h : joinPath d x = joinPath d y) :
    x = y := by
  unfold joinPath at h
  have hd := congrArg String.data h
  simp only [String.data_append, List.append_assoc] at hd
  exact String.ext (List.append_cancel_left (List.append_cancel_left hd))

/-- Splitting a character list and re-rendering both halves recomposes
its rendering. -/
theorem asString_take_append_drop (l : List Char) (k : Nat) :
    (l.take k).asString ++ (l.drop k).asString = l.asString := by
  apply String.ext
  simp only [String.data_append]
  exact List.take_append_drop k l

/-- splitext recomposes to its input. -/
theorem splitext_append (b : String) : (splitext b).1 ++ (splitext b).2 = b := by
  simp only [splitext]
  rcases hfi : b.toList.reverse.findIdx? (fun c => c = '.') with _ | j
  · simp
  · dsimp only
    split
    · exact (asString_take_append_drop b.toList (b.toList.length - 1 - j)).trans rfl
    · simp

/-- Among the first |fs| + 1 candidate names at least one is free. -/
theorem exists_free_candidate (fs : List String) (name ext : String) :
    ∃ k, k ≤ fs.length ∧
      joinPath IMAGES_DIR (candidate (name ++ ext) name ext k) ∉ fs := by
  by_contra hcon
  push_neg at hcon
  have hmaps : ∀ a : Fin (fs.length + 1),
      joinPath IMAGES_DIR (candidate (name ++ ext) name ext a.1)
        ∈ fs.toFinset := by
    intro a
    rw [List.mem_toFinset]
    exact hcon a.1 (by omega)
  have hinj : Set.InjOn (fun a : Fin (fs.length + 1) =>
      joinPath IMAGES_DIR (candidate (name ++ ext) name ext a.1))
      ↑(Finset.univ : Finset (Fin (fs.length + 1))) := by
    intro a _ b _ hab
    exact Fin.ext (candidate_inj name ext a.1 b.1 (joinPath_inj _ _ _ hab))
  have hcard := Finset.card_le_card_of_injOn _ (fun a _ => hmaps a) hinj
  simp [Finset.card_univ] at hcard
  have := List.toFinset_card_le fs
  omega

/-- The collision loop returns within the fuel bound as soon as some
candidate in range is free. -/
theorem findFreeName_terminates (fs : List String) (name ext b : String) :
    ∀ fuel m,
      (∃ k, m ≤ k ∧ k ≤ m + fuel ∧
        joinPath IMAGES_DIR (candidate b name ext k) ∉ fs) →
      ∃ c, findFreeName fs name ext fuel (candidate b name ext m) (m + 1)
        = some c := by
  intro fuel
  induction fuel with
  | zero =>
    rintro m ⟨k, hk1, hk2, hk3⟩
    have hkm : k = m := by omega
    subst hkm
    exact ⟨candidate b name ext k, by simp [findFreeName, hk3]⟩
  | succ f ih =>
    rintro m ⟨k, hk1, hk2, hk3⟩
    by_cases hm : joinPath IMAGES_DIR (candidate b name ext m) ∈ fs
    · have hkm : ¬ k = m := by
        intro he
        rw [he] at hk3
        exact hk3 hm
      obtain ⟨c, hc⟩ := ih (m + 1) ⟨k, by omega, by omega, hk3⟩
      exact ⟨c, by simp only [findFreeName, if_pos hm]; exact hc⟩
    · exact ⟨candidate b name ext m, by simp [findFreeName, hm]⟩

/-- With fuel |fs| an import of a non-empty existing source always
terminates successfully. -/
theorem copy_image_terminates (fs : List String) (src : String)
    (h1 : ¬ src = "") (h2 : src ∈ fs) :
    ∃ ret fs2, copy_image_to_storage fs true src fs.length
      = some (some ret, fs2) := by
  obtain ⟨k, hk, hfree⟩ := exists_free_candidate fs
    (splitext (basenameOf src)).1 (splitext (basenameOf src)).2
  rw [splitext_append (basenameOf src)] at hfree
  obtain ⟨c, hc⟩ := findFreeName_terminates fs
    (splitext (basenameOf src)).1 (splitext (basenameOf src)).2
    (basenameOf src) fs.length 0 ⟨k, Nat.zero_le k, by omega, hfree⟩
  have hc2 : findFreeName fs (splitext (basenameOf src)).1
      (splitext (basenameOf src)).2 fs.length (basenameOf src) 1 = some c := hc
  refine ⟨fixSeps (joinPath IMAGES_DIR c), fs ++ [joinPath IMAGES_DIR c], ?_⟩
  unfold copy_image_to_storage copyImageBody
  rw [if_neg h1, if_neg (not_not_intro h2), hc2]
  simp

/-- C9: every successful import accepts the first free candidate of the
sequence basename, name_1.ext, name_2.ext, ... (every earlier candidate
being taken), copies onto a managed path that did not exist before (no
overwrite), and returns that path with only forward-slash separators; a
second successful import of the same source lands on a managed path
distinct from the first; and the loop always finds a free name within
|fs| suffix increments, so an import of an existing non-empty source
always succeeds. -/
theorem C9_collision_policy (fs : List String) (src : String) (fuel : Nat)
    (ret : String) (fs2 : List String)
    (h : copy_image_to_storage fs true src fuel = some (some ret, fs2)) :
    (∃ c k, c = candidate (basenameOf src) (splitext (basenameOf src)).1
        (splitext (basenameOf src)).2 k ∧
      joinPath IMAGES_DIR c ∉ fs ∧
      (∀ j < k, joinPath IMAGES_DIR (candidate (basenameOf src)
        (splitext (basenameOf src)).1 (splitext (basenameOf src)).2 j) ∈ fs) ∧
      fs2 = fs ++ [joinPath IMAGES_DIR c] ∧
      ret = fixSeps (joinPath IMAGES_DIR c) ∧
      '\\' ∉ ret.toList) ∧
    (∀ fuel2 ret2 fs3,
      copy_image_to_storage fs2 true src fuel2 = some (some ret2, fs3) →
      ∃ d1 d2, fs2 = fs ++ [d1] ∧ fs3 = fs2 ++ [d2] ∧ d2 ≠ d1) ∧
    (∀ fsx : List String, ∀ srcx : String, ¬ srcx = "" → srcx ∈ fsx →
      ∃ retx fsx2, copy_image_to_storage fsx true srcx fsx.length
        = some (some retx, fsx2)) := by
  obtain ⟨c, k, hck, hfree, hfirst, hfs2, hret⟩ :=
    copy_image_success fs src fuel ret fs2 h
  refine ⟨?_, ?_, ?_⟩
  · exact ⟨c, k, hck, hfree, hfirst, hfs2, hret,
      hret ▸ fixSeps_no_backslash (joinPath IMAGES_DIR c)⟩
  · intro fuel2 ret2 fs3 h2
    obtain ⟨c2, k2, _, hfree2, _, hfs3, _⟩ :=
      copy_image_success fs2 src fuel2 ret2 fs3 h2
    refine ⟨joinPath IMAGES_DIR c, joinPath IMAGES_DIR c2, hfs2, hfs3, ?_⟩
    intro heq
    apply hfree2
    rw [heq, hfs2]
    exact List.mem_append_right fs (List.mem_singleton_self _)
  · exact copy_image_terminates

/-- Witness for C9: importing pics/a.png while images/a.png is taken
accepts a_1.png, and the returned path has no backslash. -/
theorem C9_witness :
    copy_image_to_storage ["pics/a.png", "images/a.png"] true "pics/a.png" 3
      = some (some "images/a_1.png",
        ["pics/a.png", "images/a.png", "images/a_1.png"]) ∧
    '\\' ∉ ("images/a_1.png" : String).toList := by
  have h : copy_image_to_storage ["pics/a.png", "images/a.png"] true
      "pics/a.png" 3 = some (some "images/a_1.png",
        ["pics/a.png", "images/a.png", "images/a_1.png"]) := by decide
  refine ⟨h, ?_⟩
  obtain ⟨c, k, _, _, _, _, _, hbs⟩ :=
    (C9_collision_policy ["pics/a.png", "images/a.png"] "pics/a.png" 3
      "images/a_1.png" ["pics/a.png", "images/a.png", "images/a_1.png"] h).1
  exact hbs

end SecondHand
